import Mathlib

/-!
Verification of the text-Extractor selection-to-text extraction pipeline.

This development shallowly embeds the content scripts of the extension:
the geometry engine (`detectImagesInSelection`), the selectable-text
collector and normalizer (`extractSelectableText`), the extraction
aggregator (`extractTextFromSelection`), the selection overlay's
pointer-up handler (`handleMouseUp`), and the OCR processor
(`OCRProcessor.extractText` and the pixel loop of
`OCRProcessor.preprocessImage`).

Page/viewport coordinates are modelled by `ℤ` (every operation the source
performs on them — addition, subtraction, min, max, comparisons — is exact on
IEEE doubles at these magnitudes as well, so integrality does not change any
compared behaviour); the pixel arithmetic of preprocessing, which divides and
scales, is modelled by `ℚ`. JavaScript strings are `String`,
and the asynchronous collaborators (image loading, the Tesseract engine,
chrome script injection) by explicit outcome data threaded through an
environment, since every await point in the source consumes a single
externally produced value.
-/

namespace TextExtractor

/-- Core whitespace set of JavaScript String.prototype.trim
(space, tab, LF, CR, vertical tab, form feed). -/
def jsWhitespace (c : Char) : Bool :=
  c = ' ' || c = '\t' || c = '\n' || c = '\r' || c = '\x0b' || c = '\x0c'

/-- String.prototype.trim on a character list: drop whitespace from both ends. -/
def trimChars (l : List Char) : List Char :=
  ((l.dropWhile jsWhitespace).reverse.dropWhile jsWhitespace).reverse

/-- String.prototype.trim. -/
def trimStr (s : String) : String := ⟨trimChars s.data⟩

/-- Array.prototype.join with a separator string. -/
def arrayJoin (sep : String) : List String → String
  | [] => ""
  | [s] => s
  | s :: rest => s ++ sep ++ arrayJoin sep rest

/-- Run-wise engine of the regex replace `s.replace(/\n{t,}/g, run of r newlines)`:
`pending` counts the maximal newline run read so far; a maximal run of `n`
newlines is emitted as `r` newlines when `n ≥ t` and kept unchanged otherwise,
exactly as the global regex rewrites each maximal run of `t` or more newlines. -/
def collapseGo (t r : Nat) (pending : Nat) : List Char → List Char
  | [] => List.replicate (if t ≤ pending then r else pending) '\n'
  | c :: cs =>
    if c = '\n' then collapseGo t r (pending + 1) cs
    else List.replicate (if t ≤ pending then r else pending) '\n' ++ c :: collapseGo t r 0 cs

/-- `s.replace(/\n{t,}/g, run of r newlines)`. -/
def collapseNLRuns (t r : Nat) (l : List Char) : List Char := collapseGo t r 0 l

/-- `s.replace(/\t/g, ' ')`. -/
def replaceTabs (l : List Char) : List Char := l.map fun c => if c = '\t' then ' ' else c

/-- `s.replace(/\r\n/g, '\n')`: single left-to-right pass over matches. -/
def replaceCRLF : List Char → List Char
  | [] => []
  | [c] => [c]
  | c :: d :: rest =>
    if c = '\r' ∧ d = '\n' then '\n' :: replaceCRLF rest
    else c :: replaceCRLF (d :: rest)

/-- `s.replace(/\r/g, '\n')`. -/
def replaceCRs (l : List Char) : List Char := l.map fun c => if c = '\r' then '\n' else c

/-- The list contains `k` consecutive newline characters. -/
def nlRun (k : Nat) (l : List Char) : Prop :=
  ∃ s t, l = s ++ List.replicate k '\n' ++ t

/-- The first list is equal to an initial segment of the second. -/
def seqStartsWith : List Char → List Char → Bool
  | [], _ => true
  | _ :: _, [] => false
  | a :: pa, b :: lb => a = b && seqStartsWith pa lb

/-- The second list contains the first as a contiguous subsequence. -/
def seqContains (pat : List Char) : List Char → Bool
  | [] => pat.isEmpty
  | c :: cs => seqStartsWith pat (c :: cs) || seqContains pat cs

/-- String.prototype.includes. -/
def strIncludes (s pat : String) : Bool := seqContains pat.data s.data

/-! ## Data model: selection rectangles and DOM snapshots -/

/-- The selection data object produced at pointer-up:
page coordinates plus viewport coordinates. -/
structure SelectionData where
  x : ℤ
  y : ℤ
  width : ℤ
  height : ℤ
  viewportX : ℤ
  viewportY : ℤ
  viewportWidth : ℤ
  viewportHeight : ℤ
deriving DecidableEq

/-- A DOMRect as returned by getBoundingClientRect (left/top/width/height form). -/
structure BRect where
  left : ℤ
  top : ℤ
  width : ℤ
  height : ℤ
deriving DecidableEq

/-- A rectangle in left/top/right/bottom form. -/
structure SRect where
  left : ℤ
  top : ℤ
  right : ℤ
  bottom : ℤ
deriving DecidableEq

/-- The selection rectangle in viewport coordinates, as built at the top of
`detectImagesInSelection` and `extractSelectableText`. -/
def selRectOf (s : SelectionData) : SRect :=
  ⟨s.viewportX, s.viewportY, s.viewportX + s.viewportWidth, s.viewportY + s.viewportHeight⟩

/-- Convert a DOMRect to left/top/right/bottom form
(right = left + width, bottom = top + height). -/
def toSRect (r : BRect) : SRect := ⟨r.left, r.top, r.left + r.width, r.top + r.height⟩

/-- The strict rectangle-exclusion overlap test used throughout the source:
`!(r.right < sel.left || r.left > sel.right || r.bottom < sel.top || r.top > sel.bottom)`. -/
def rectOverlaps (sel r : SRect) : Bool :=
  ! (decide (r.right < sel.left) || decide (r.left > sel.right) ||
     decide (r.bottom < sel.top) || decide (r.top > sel.bottom))

/-- A successful OCR result object `{text, confidence, processingTime}`. -/
structure OcrCallResult where
  text : String
  confidence : Nat
  processingTime : Nat
deriving DecidableEq

/-- Outcome of one `OCRProcessor.extractText` call as observed by the aggregator:
the promise either fulfills with a result or rejects with an error message. -/
inductive OcrOutcome where
  | ok (r : OcrCallResult)
  | err (e : String)
deriving DecidableEq

/-- One `img` element on the page: its bounding rectangle, its `src`, whether a
fresh `Image` loaded from that src fires onload (`loads`), and the outcome the
OCR processor produces for it. -/
structure ImgElem where
  rect : BRect
  src : String
  loads : Bool
  ocr : OcrOutcome
deriving DecidableEq

/-- One element returned by `document.elementsFromPoint` at the selection center:
its bounding rectangle, the URL parsed from its computed background-image (if the
style declares one), its innerText, whether its tag is IMG, whether its image URL
loads, and the OCR outcome for it. -/
structure CenterElem where
  rect : BRect
  bgUrl : Option String
  innerText : String
  isImgTag : Bool
  loads : Bool
  ocr : OcrOutcome
deriving DecidableEq

/-- The intersection record `{x, y, width, height}` stored on a detected image. -/
structure Intersection where
  x : ℤ
  y : ℤ
  width : ℤ
  height : ℤ
deriving DecidableEq

/-- A candidate image produced by `detectImagesInSelection`. `isBg` marks the
`type: 'background-image'` records of the second pass; `isImgTag`, `loads` and
`ocr` carry the originating element's environment data for the later OCR phase
(the JavaScript record instead holds a live `element` reference). Provenance
fields (alt, naturalWidth, displayWidth, index) carry no logic downstream and
are not modelled. -/
structure DetectedImage where
  src : String
  intersection : Intersection
  isBg : Bool
  isImgTag : Bool
  loads : Bool
  ocr : OcrOutcome
deriving DecidableEq

/-- `detectImagesInSelection`: first pass over all `img` elements keeps an
element whose bounding rectangle overlaps the selection and whose intersection
is wider and taller than 10; second pass over the elements at the selection
center keeps any element with a background-image URL whose rectangle overlaps
the selection (no intersection-size check appears in that branch). -/
def detectImagesInSelection (sel : SelectionData) (imgs : List ImgElem)
    (centerElems : List CenterElem) : List DetectedImage :=
  let selR := selRectOf sel
  (imgs.filterMap fun im =>
    let imageRect := toSRect im.rect
    if rectOverlaps selR imageRect then
      let ileft := max selR.left imageRect.left
      let itop := max selR.top imageRect.top
      let iright := min selR.right imageRect.right
      let ibottom := min selR.bottom imageRect.bottom
      let iw := iright - ileft
      let ih := ibottom - itop
      if decide (iw > 10) && decide (ih > 10) then
        some { src := im.src, intersection := ⟨ileft, itop, iw, ih⟩, isBg := false,
               isImgTag := true, loads := im.loads, ocr := im.ocr }
      else none
    else none)
  ++ centerElems.filterMap fun e =>
    match e.bgUrl with
    | none => none
    | some u =>
      let er := toSRect e.rect
      if rectOverlaps selR er then
        some { src := u,
               intersection := ⟨max selR.left er.left, max selR.top er.top,
                 min selR.right er.right - max selR.left er.left,
                 min selR.bottom er.bottom - max selR.top er.top⟩,
               isBg := true, isImgTag := e.isImgTag, loads := e.loads, ocr := e.ocr }
      else none

/-! ## Selectable text extraction -/

/-- A text node visited by the TreeWalker, with the bounding rectangle of a
range selecting its contents. -/
structure TextNodeInfo where
  content : String
  rect : BRect
deriving DecidableEq

/-- The TreeWalker filter for a text node: accepted when its rendered rectangle
has positive width and height and overlaps the selection. -/
def nodeAccepted (selR : SRect) (n : TextNodeInfo) : Bool :=
  decide (n.rect.width > 0) && decide (n.rect.height > 0) && rectOverlaps selR (toSRect n.rect)

/-- The walker loop of `extractSelectableText`: every accepted text node's
trimmed nonempty textContent is pushed, in traversal order, with no
duplicate check. -/
def walkerPieces (sel : SelectionData) (nodes : List TextNodeInfo) : List String :=
  let selR := selRectOf sel
  (nodes.filter fun n => nodeAccepted selR n).filterMap fun n =>
    let t := trimStr n.content
    if t ≠ "" then some t else none

/-- The fallback loop of `extractSelectableText` over `elementsFromPoint`
results: an overlapping element's trimmed nonempty innerText is appended only
when not already present in the accumulated pieces. -/
def addFallbackTexts (sel : SelectionData) (centerElems : List CenterElem)
    (pieces : List String) : List String :=
  let selR := selRectOf sel
  centerElems.foldl (fun acc e =>
    if rectOverlaps selR (toSRect e.rect) then
      if e.innerText ≠ "" ∧ trimStr e.innerText ≠ "" then
        if trimStr e.innerText ∉ acc then acc ++ [trimStr e.innerText] else acc
      else acc
    else acc) pieces

/-- The complete piece-collection phase of `extractSelectableText`. -/
def collectTextPieces (sel : SelectionData) (nodes : List TextNodeInfo)
    (centerElems : List CenterElem) : List String :=
  addFallbackTexts sel centerElems (walkerPieces sel nodes)

/-- The normalization tail of `extractSelectableText`, in source order:
join with newline, collapse runs of 3+ newlines to 2, tabs to spaces,
CRLF to LF, CR to LF, trim. -/
def normalizePieces (pieces : List String) : String :=
  let joined := arrayJoin ("\n") pieces
  let collapsed := collapseNLRuns 3 2 joined.data
  let untabbed := replaceTabs collapsed
  let lfOnly := replaceCRs (replaceCRLF untabbed)
  ⟨trimChars lfOnly⟩

/-- `extractSelectableText` of the content script. -/
def extractSelectableText (sel : SelectionData) (nodes : List TextNodeInfo)
    (centerElems : List CenterElem) : String :=
  normalizePieces (collectTextPieces sel nodes centerElems)

/-! ## Extraction aggregator -/

/-- One entry of the `imageDataArray` built by `extractImagesForOCR`:
the acquired raster (`hasImage` models the truthiness of `imageData.image`),
the `info.src` field (absent for the selection-area capture), and the outcome
of running `OCRProcessor.extractText` on it. -/
structure ImageDatum where
  hasImage : Bool
  src : Option String
  ocr : OcrOutcome
deriving DecidableEq

/-- One entry of `results.images`. The JavaScript objects carry different field
sets per outcome; `Option` fields model field presence. -/
structure ImageAttempt where
  src : String
  text : String
  confidence : Option Nat
  processingTime : Option Nat
  warning : Option String
  error : Option String
deriving DecidableEq

/-- One entry of `results.errors`: either a structured record or the bare
string pushed by the aggregator's outermost catch. -/
inductive ErrEntry where
  | entry (imageIndex : Option Nat) (src : Option String) (error : String) (etype : String)
  | plain (message : String)
deriving DecidableEq

/-- `imageData.info.src || 'selection-area'`. -/
def srcName (d : ImageDatum) : String := d.src.getD ("selection-area")

/-- `error.message || 'Unknown error'`. -/
def errMsg (e : String) : String := if e = "" then "Unknown error" else e

/-- The body of the per-image OCR loop of `extractTextFromSelection` for the
image at 0-based index `i`: returns the text contributed to `ocrResults`, the
record pushed to `results.images`, and the records pushed to `results.errors`. -/
def processOne (i : Nat) (d : ImageDatum) : Option String × ImageAttempt × List ErrEntry :=
  if d.hasImage = false then
    let m := "Image data is missing"
    (none,
     { src := srcName d, text := "", confidence := none, processingTime := none,
       warning := none, error := some m },
     [ErrEntry.entry (some (i + 1)) (some (srcName d)) m ("ocr_failure")])
  else
    match d.ocr with
    | .ok r =>
      if r.text ≠ "" ∧ trimStr r.text ≠ "" then
        (some r.text,
         { src := srcName d, text := r.text, confidence := some r.confidence,
           processingTime := some r.processingTime, warning := none, error := none },
         [])
      else
        (none,
         { src := srcName d, text := "", confidence := some 0, processingTime := none,
           warning := some ("No text detected in image"), error := none },
         [])
    | .err e =>
      let m := errMsg e
      (none,
       { src := srcName d, text := "", confidence := none, processingTime := none,
         warning := none, error := some m },
       [ErrEntry.entry (some (i + 1)) (some (srcName d)) m ("ocr_failure")])

/-- The per-image OCR loop: arrays `ocrResults`, `results.images`,
`results.errors` are appended to in index order. -/
def processImagesGo (i : Nat) (arr : List ImageDatum)
    (acc : List String × List ImageAttempt × List ErrEntry) :
    List String × List ImageAttempt × List ErrEntry :=
  match arr with
  | [] => acc
  | d :: ds =>
    let step := processOne i d
    processImagesGo (i + 1) ds
      (acc.1 ++ step.1.toList, acc.2.1 ++ [step.2.1], acc.2.2 ++ step.2.2)

/-- The whole per-image OCR loop of `extractTextFromSelection`, starting from
empty arrays at index 0. -/
def processImages (arr : List ImageDatum) : List String × List ImageAttempt × List ErrEntry :=
  processImagesGo 0 arr ([], [], [])

/-- Per-element closed form: the text an image contributes to `ocrResults`. -/
def succTextOf (d : ImageDatum) : Option String :=
  if d.hasImage = false then none
  else
    match d.ocr with
    | .ok r => if r.text ≠ "" ∧ trimStr r.text ≠ "" then some r.text else none
    | .err _ => none

/-- Per-element closed form: the record an image contributes to `results.images`. -/
def attemptOf (d : ImageDatum) : ImageAttempt :=
  if d.hasImage = false then
    { src := srcName d, text := "", confidence := none, processingTime := none,
      warning := none, error := some ("Image data is missing") }
  else
    match d.ocr with
    | .ok r =>
      if r.text ≠ "" ∧ trimStr r.text ≠ "" then
        { src := srcName d, text := r.text, confidence := some r.confidence,
          processingTime := some r.processingTime, warning := none, error := none }
      else
        { src := srcName d, text := "", confidence := some 0, processingTime := none,
          warning := some ("No text detected in image"), error := none }
    | .err e =>
      { src := srcName d, text := "", confidence := none, processingTime := none,
        warning := none, error := some (errMsg e) }

/-- Per-element closed form: the failure message recorded for an image, if any. -/
def failMsgOf (d : ImageDatum) : Option String :=
  if d.hasImage = false then some ("Image data is missing")
  else
    match d.ocr with
    | .ok _ => none
    | .err e => some (errMsg e)

/-- Closed form of `results.errors` contributed by the loop, with 1-based
indices starting at `n`. -/
def errorsOf (n : Nat) : List ImageDatum → List ErrEntry
  | [] => []
  | d :: ds =>
    (match failMsgOf d with
     | some m => [ErrEntry.entry (some n) (some (srcName d)) m ("ocr_failure")]
     | none => []) ++ errorsOf (n + 1) ds

/-- The mutable OCR-processor state observable from the aggregator:
whether `window.OCRProcessor` is defined (`processorLoaded`) and whether
`OCRProcessor.isReady()` holds (`initialized`). -/
structure OcrScriptState where
  processorLoaded : Bool
  initialized : Bool
deriving DecidableEq

/-- The `results` object of `extractTextFromSelection`. -/
structure Results where
  selectableText : String
  ocrText : String
  combinedText : String
  images : List ImageAttempt
  errors : List ErrEntry
deriving DecidableEq

/-- Environment of one `extractTextFromSelection` call: the DOM snapshot and
the outcomes of the call's await points (`loadOCRScript`,
`OCRProcessor.initialize`, the selection-area capture and its OCR run). -/
structure ExtractEnv where
  sel : SelectionData
  pageImgs : List ImgElem
  centerElems : List CenterElem
  walkerNodes : List TextNodeInfo
  scriptLoad : Except String Bool
  initOutcome : Except String Unit
  captureOk : Bool
  captureOcr : OcrOutcome

/-- `extractImagesForOCR`: re-detects the candidate images, acquires a raster
for each (an img element always yields one — on load failure the original
element is used; a background-image element whose URL fails to load is skipped
silently), then appends the whole-selection capture as one more datum with no
`src`. -/
def extractImagesForOCR (env : ExtractEnv) : List ImageDatum :=
  let detected := detectImagesInSelection env.sel env.pageImgs env.centerElems
  (detected.filterMap fun d =>
    if d.loads || d.isImgTag then some { hasImage := true, src := some d.src, ocr := d.ocr }
    else none)
  ++ (if env.captureOk then [{ hasImage := true, src := none, ocr := env.captureOcr }] else [])

/-- Merge step of `extractTextFromSelection`: push the trimmed nonempty parts,
join with a blank line, collapse runs of 4+ newlines to exactly 3, trim. -/
def mergeCombined (selText ocrText : String) : String :=
  let parts :=
    (if selText ≠ "" ∧ trimStr selText ≠ "" then [trimStr selText] else []) ++
    (if ocrText ≠ "" ∧ trimStr ocrText ≠ "" then [trimStr ocrText] else [])
  ⟨trimChars (collapseNLRuns 4 3 (arrayJoin ("\n\n") parts).data)⟩

/-- The isReady branch of the aggregator: build the image data array, run the
per-image loop, join the successful texts with blank lines (leaving `ocrText`
empty when there are none). -/
def processReady (env : ExtractEnv) (st2 : OcrScriptState) (initErrs : List ErrEntry) :
    Except String (String × List ImageAttempt × List ErrEntry × OcrScriptState) :=
  let p := processImages (extractImagesForOCR env)
  Except.ok (if 0 < p.1.length then arrayJoin ("\n\n") p.1 else "", p.2.1,
             initErrs ++ p.2.2, st2)

/-- The OCR phase of `extractTextFromSelection`, entered when candidate images
were detected: load the processor script when absent (a rejection here
propagates to the aggregator's outermost catch), initialize the processor
(failure is recorded, not thrown), then either run the per-image loop or record
that the processor is not ready/unavailable. Returns the new `ocrText`,
`images`, `errors` and processor state. -/
def ocrPhase (env : ExtractEnv) (st : OcrScriptState) :
    Except String (String × List ImageAttempt × List ErrEntry × OcrScriptState) :=
  match (if st.processorLoaded then Except.ok true else env.scriptLoad) with
  | .error e => Except.error e
  | .ok present =>
    if present then
      let stL : OcrScriptState := { st with processorLoaded := true }
      match env.initOutcome with
      | .ok _ => processReady env { stL with initialized := true } []
      | .error e =>
        let initErrs := [ErrEntry.entry none none
          ("Failed to initialize OCR processor: " ++ errMsg e) ("initialization_failure")]
        if stL.initialized then processReady env stL initErrs
        else Except.ok ("", [], initErrs ++
          [ErrEntry.entry none none ("OCR processor not ready") ("processor_not_ready")], stL)
    else
      Except.ok ("", [],
        [ErrEntry.entry none none
          ("OCR processor not available. Tesseract.js may not be loaded.")
          ("processor_unavailable")], st)

/-- The try block of `extractTextFromSelection`: collect selectable text,
run the OCR phase when images were detected, merge. An error value is the
exception reaching the outermost catch, paired with the partially filled
`results` object and the processor state at the throw point. -/
def extractBodyE (env : ExtractEnv) (st : OcrScriptState) :
    Except (String × Results × OcrScriptState) (Results × OcrScriptState) :=
  let selText := extractSelectableText env.sel env.walkerNodes env.centerElems
  match (if 0 < (detectImagesInSelection env.sel env.pageImgs env.centerElems).length
         then ocrPhase env st
         else Except.ok ("", [], [], st)) with
  | .error e =>
    Except.error (e, { selectableText := selText, ocrText := "", combinedText := "",
                       images := [], errors := [] }, st)
  | .ok q =>
    Except.ok ({ selectableText := selText, ocrText := q.1,
                 combinedText := mergeCombined selText q.1,
                 images := q.2.1, errors := q.2.2.1 }, q.2.2.2)

/-- `extractTextFromSelection`: the try block plus its outermost catch, which
converts any exception into a bare-string error entry and returns the results
collected so far. The function always returns a `Results` value. -/
def extractTextFromSelection (env : ExtractEnv) (st : OcrScriptState) :
    Results × OcrScriptState :=
  match extractBodyE env st with
  | .ok rs => rs
  | .error (e, pr, stE) =>
    ({ pr with errors := pr.errors ++ [ErrEntry.plain ("Extraction failed: " ++ e)] }, stE)

/-! ## Selection overlay: pointer-up handler -/

/-- The selection data object built in `handleMouseUp` from the selection box
rectangle and the scroll offsets. -/
def selectionDataOf (r : BRect) (scrollX scrollY : ℤ) : SelectionData :=
  { x := r.left + scrollX, y := r.top + scrollY, width := r.width, height := r.height,
    viewportX := r.left, viewportY := r.top, viewportWidth := r.width,
    viewportHeight := r.height }

/-- Observable effect of one `handleMouseUp` call: the event is ignored (guard
fails or no selection box), the selection is silently cancelled (overlay
removed, no extraction), or the rectangle is committed to
`handleSelectionComplete`, which invokes `extractTextFromSelection`. -/
inductive MouseUpResult where
  | ignored
  | cancelled
  | committed (sel : SelectionData)
deriving DecidableEq

/-- `handleMouseUp` of the selection overlay: proceed to extraction only when
both dimensions exceed 5, otherwise remove the overlay and stop. -/
def handleMouseUp (isActive isSelecting : Bool) (box : Option BRect)
    (scrollX scrollY : ℤ) : MouseUpResult :=
  if ¬ (isActive = true ∧ isSelecting = true) then .ignored
  else
    match box with
    | none => .ignored
    | some r =>
      let sel := selectionDataOf r scrollX scrollY
      if sel.width > 5 ∧ sel.height > 5 then .committed sel else .cancelled

/-! ## OCR processor -/

/-- The `OCRProcessor` state relevant to `extractText`. -/
structure OcrProcState where
  isInitialized : Bool
deriving DecidableEq

/-- The `result.data` object produced by the recognition engine. -/
structure RecData where
  text : String
  confidence : Nat
deriving DecidableEq

/-- The value `OCRProcessor.extractText` resolves with (word/line/paragraph
arrays, always copied verbatim from the engine, are not modelled). -/
structure OcrReturn where
  text : String
  confidence : Nat
  processingTime : Nat
  warning : Option String
deriving DecidableEq

/-- The runtime type of the `imageSource` argument, with the environment data
each branch consumes: URL strings carry their load outcome and load duration,
image elements their `complete`/natural-dimension state, canvases and ImageData
their dimensions. -/
inductive ImageSource where
  | nullSource
  | urlString (loadResult : Except String Unit) (loadTime : Nat) (naturalW naturalH : Nat)
  | imgElement (complete : Bool) (naturalW naturalH : Nat)
  | canvasElement (w h : Nat)
  | rawImageData (w h : Nat)
  | unsupported (typeName : String)

/-- The preprocessing branch of `extractText`: load-and-validate per source
kind. The raster manipulation itself (`preprocessImage`) always succeeds; its
pixel arithmetic is modelled separately by `OCRProcessor.processPixel`. -/
def preprocessStep : ImageSource → Except String Unit
  | .nullSource => Except.error ("Unsupported image source type: object")
  | .urlString loadResult loadTime nw nh =>
    if 10000 ≤ loadTime then Except.error ("Image loading timeout")
    else
      match loadResult with
      | .error m => Except.error ("Failed to load image: " ++ errMsg m)
      | .ok _ =>
        if nw = 0 ∨ nh = 0 then
          Except.error ("Invalid image: image failed to load or has zero dimensions")
        else Except.ok ()
  | .imgElement complete nw nh =>
    if complete = false ∨ nw = 0 ∨ nh = 0 then
      Except.error ("Invalid image element: image not loaded or has zero dimensions")
    else Except.ok ()
  | .canvasElement w h =>
    if w = 0 ∨ h = 0 then Except.error ("Invalid canvas: canvas has zero dimensions")
    else Except.ok ()
  | .rawImageData w h =>
    if w = 0 ∨ h = 0 then Except.error ("Invalid ImageData: ImageData has zero dimensions")
    else Except.ok ()
  | .unsupported ty => Except.error ("Unsupported image source type: " ++ ty)

/-- The hard OCR timeout of `extractText` (milliseconds). -/
def ocrTimeoutMs : Nat := 30000

/-- The catch block of `extractText`: rewrite the error message by substring
class, in source order. -/
def rewriteOcrError (e : String) : String :=
  let m := if e = "" then "OCR processing failed" else e
  if strIncludes m ("timeout") then
    "OCR processing timed out. The image may be too large or complex."
  else if strIncludes m ("load") then
    "Failed to load image. The image may be corrupted or inaccessible."
  else if strIncludes m ("language") then
    "Invalid language code. Please select a valid language."
  else if strIncludes m ("dimensions") || strIncludes m ("zero") then
    "Invalid image: image has zero dimensions or failed to load."
  else m

/-- Environment of one `extractText` call: the initialization outcome (used
only when the processor is uninitialized), the image source, the resolved
options, and the engine's behaviour in the `Promise.race` (when it settles and
with what). `processingTime` is the wall-clock duration stamped on results. -/
structure ExtractTextEnv where
  initOutcome : Except String Unit
  src : ImageSource
  shouldPreprocess : Bool
  lang : String
  engineTime : Nat
  engineOutcome : Except String (Option RecData)
  processingTime : Nat

/-- `!imageSource`: only the null/undefined source is falsy. -/
def isNullSource : ImageSource → Bool
  | .nullSource => true
  | _ => false

/-- The try block of `extractText`: null check, optional preprocessing with its
error prefix, language check, the recognition race against the 30000 ms timer,
the `result.data` check, and the empty-text branch that resolves with a warning
instead of failing. -/
def OCRProcessor.tryBody (env : ExtractTextEnv) : Except String OcrReturn :=
  if isNullSource env.src then
    Except.error ("Invalid image source: image source is null or undefined")
  else
    match (if env.shouldPreprocess then
             match preprocessStep env.src with
             | .error m => Except.error ("Image preprocessing failed: " ++ m)
             | .ok _ => Except.ok ()
           else Except.ok ()) with
    | .error m => Except.error m
    | .ok _ =>
      if env.lang = "" then Except.error ("Invalid language code: " ++ env.lang)
      else
        match (if env.engineTime < ocrTimeoutMs then env.engineOutcome
               else Except.error ("OCR processing timeout: exceeded " ++
                                  toString ocrTimeoutMs ++ "ms")) with
        | .error m => Except.error m
        | .ok none => Except.error ("Invalid OCR result: result data is missing")
        | .ok (some d) =>
          if trimStr d.text = "" then
            Except.ok { text := "", confidence := 0, processingTime := env.processingTime,
                        warning := some ("No text found in image") }
          else
            Except.ok { text := d.text, confidence := d.confidence,
                        processingTime := env.processingTime, warning := none }

/-- `OCRProcessor.extractText`: initialize first when needed (that failure
propagates unrewritten), then run the try block with its catch rewriting
error messages. -/
def OCRProcessor.extractText (st : OcrProcState) (env : ExtractTextEnv) :
    Except String OcrReturn :=
  let afterInit : Except String Unit :=
    if st.isInitialized = false then
      match env.initOutcome with
      | .error e => Except.error ("Failed to initialize OCR: " ++ e)
      | .ok _ => Except.ok ()
    else Except.ok ()
  match afterInit with
  | .error e => Except.error e
  | .ok _ =>
    match OCRProcessor.tryBody env with
    | .ok r => Except.ok r
    | .error e => Except.error (rewriteOcrError e)

/-! ## Image preprocessing pixel arithmetic -/

/-- JavaScript Math.round: round half toward positive infinity. -/
def jsRound (x : ℚ) : ℚ := ((⌊x + 1/2⌋ : ℤ) : ℚ)

/-- `Math.min(255, Math.max(0, x))`. -/
def clamp255 (x : ℚ) : ℚ := min 255 (max 0 x)

/-- The grayscale luminance value written by `preprocessImage`:
`Math.round(0.299*r + 0.587*g + 0.114*b)`. -/
def grayOf (r g b : ℚ) : ℚ := jsRound (299/1000 * r + 587/1000 * g + 114/1000 * b)

/-- The clamped contrast-stretched value written by `preprocessImage`:
`Math.min(255, Math.max(0, avg + (c - avg) * 1.2))`. -/
def contrastStretch (avg c : ℚ) : ℚ := clamp255 (avg + (c - avg) * (12/10))

/-- The per-pixel body of the preprocessing loop of
`OCRProcessor.preprocessImage`: optional grayscale conversion (written to all
three channels), then optional contrast enhancement around the current channel
average. Returns the channel values written back. -/
def OCRProcessor.processPixel (grayscale enhanceContrast : Bool) (r g b : ℚ) :
    ℚ × ℚ × ℚ :=
  let v1 := if grayscale then (grayOf r g b, grayOf r g b, grayOf r g b) else (r, g, b)
  if enhanceContrast then
    let avg := (v1.1 + v1.2.1 + v1.2.2) / 3
    (contrastStretch avg v1.1, contrastStretch avg v1.2.1, contrastStretch avg v1.2.2)
  else v1

/-- A channel value within the valid byte range. -/
def inRange255 (x : ℚ) : Prop := 0 ≤ x ∧ x ≤ 255

/-! ## Newline-run lemmas -/

theorem nlRun_zero (l : List Char) : nlRun 0 l := ⟨[], l, by simp⟩

theorem not_nlRun_nil {k : Nat} (hk : 0 < k) : ¬ nlRun k ([] : List Char) := by
  rintro ⟨s, t, h⟩
  have h2 := congrArg List.length h
  simp [List.length_replicate] at h2
  omega

theorem not_nlRun_cons {k : Nat} {c : Char} {l : List Char} (hc : c ≠ '\n') (hk : 0 < k)
    (hl : ¬ nlRun k l) : ¬ nlRun k (c :: l) := by
  rintro ⟨s, t, h⟩
  cases s with
  | nil =>
    cases k with
    | zero => omega
    | succ k1 =>
      rw [List.replicate_succ] at h
      simp only [List.nil_append, List.cons_append, List.cons.injEq] at h
      exact hc h.1
  | cons a s1 =>
    simp only [List.cons_append, List.cons.injEq] at h
    exact hl ⟨s1, t, h.2⟩

theorem repl_append_eq {l t : List Char} :
    ∀ j m : Nat, j < m → List.replicate j '\n' ++ l = List.replicate m '\n' ++ t →
      ∃ n, 0 < n ∧ l = List.replicate n '\n' ++ t := by
  intro j
  induction j with
  | zero =>
    intro m hm h
    simp only [List.replicate, List.nil_append] at h
    exact ⟨m, hm, h⟩
  | succ j1 ih =>
    intro m hm h
    cases m with
    | zero => omega
    | succ m1 =>
      rw [List.replicate_succ, List.replicate_succ] at h
      simp only [List.cons_append, List.cons.injEq, true_and] at h
      exact ih m1 (by omega) h

theorem not_nlRun_repl_append {k : Nat} {l : List Char} (hhead : l.head? ≠ some '\n')
    (hl : ¬ nlRun k l) : ∀ j, j < k → ¬ nlRun k (List.replicate j '\n' ++ l) := by
  intro j
  induction j with
  | zero =>
    intro _
    simpa using hl
  | succ j1 ih =>
    intro hj
    rintro ⟨s, t, h⟩
    rw [List.replicate_succ] at h
    cases s with
    | nil =>
      cases k with
      | zero => omega
      | succ k1 =>
        rw [List.replicate_succ] at h
        simp only [List.cons_append, List.nil_append, List.cons.injEq, true_and] at h
        obtain ⟨n, hn, hl2⟩ := repl_append_eq j1 k1 (by omega) h
        cases n with
        | zero => omega
        | succ n1 =>
          rw [List.replicate_succ] at hl2
          rw [hl2] at hhead
          simp at hhead
    | cons a s1 =>
      simp only [List.cons_append, List.cons.injEq] at h
      exact ih (by omega) ⟨s1, t, h.2⟩

theorem not_nlRun_collapseGo {k t r : Nat} (htk : t ≤ k) (hrk : r < k) :
    ∀ (l : List Char) (p : Nat), ¬ nlRun k (collapseGo t r p l) := by
  intro l
  induction l with
  | nil =>
    intro p
    have hm : (if t ≤ p then r else p) < k := by split <;> omega
    have h0 : ¬ nlRun k ([] : List Char) := not_nlRun_nil (by omega)
    have h2 := not_nlRun_repl_append (l := []) (by simp) h0 _ hm
    simpa [collapseGo] using h2
  | cons c cs ih =>
    intro p
    by_cases hc : c = '\n'
    · simpa [collapseGo, hc] using ih (p + 1)
    · have hm : (if t ≤ p then r else p) < k := by split <;> omega
      have h1 : ¬ nlRun k (c :: collapseGo t r 0 cs) := not_nlRun_cons hc (by omega) (ih 0)
      have h2 := not_nlRun_repl_append (l := c :: collapseGo t r 0 cs) (by simpa using hc) h1 _ hm
      simpa [collapseGo, hc] using h2

theorem not_nlRun_collapseNLRuns {k t r : Nat} (htk : t ≤ k) (hrk : r < k) (l : List Char) :
    ¬ nlRun k (collapseNLRuns t r l) :=
  not_nlRun_collapseGo htk hrk l 0

theorem mem_collapseGo {t r : Nat} {c : Char} :
    ∀ (l : List Char) (p : Nat), c ∈ collapseGo t r p l → c ∈ l ∨ c = '\n' := by
  intro l
  induction l with
  | nil =>
    intro p hc
    simp only [collapseGo] at hc
    exact Or.inr (List.eq_of_mem_replicate hc)
  | cons a cs ih =>
    intro p hc
    by_cases ha : a = '\n'
    · simp only [collapseGo, if_pos ha] at hc
      rcases ih (p + 1) hc with h | h
      · exact Or.inl (List.mem_cons_of_mem a h)
      · exact Or.inr h
    · simp only [collapseGo, if_neg ha, List.mem_append, List.mem_cons] at hc
      rcases hc with h | h | h
      · exact Or.inr (List.eq_of_mem_replicate h)
      · exact Or.inl (h ▸ List.mem_cons_self a cs)
      · rcases ih 0 h with h2 | h2
        · exact Or.inl (List.mem_cons_of_mem a h2)
        · exact Or.inr h2

theorem map_eq_repl_append {f : Char → Char} (hf : ∀ c, f c = '\n' → c = '\n') :
    ∀ (k : Nat) (l t : List Char), l.map f = List.replicate k '\n' ++ t →
      ∃ t1, l = List.replicate k '\n' ++ t1 ∧ t1.map f = t := by
  intro k
  induction k with
  | zero =>
    intro l t h
    exact ⟨l, by simp, by simpa using h⟩
  | succ k1 ih =>
    intro l t h
    cases l with
    | nil => simp [List.replicate_succ] at h
    | cons a l1 =>
      rw [List.replicate_succ] at h
      simp only [List.map_cons, List.cons_append, List.cons.injEq] at h
      obtain ⟨t1, h1, h2⟩ := ih l1 t h.2
      refine ⟨t1, ?_, h2⟩
      rw [List.replicate_succ]
      simp [hf a h.1, h1]

theorem nlRun_of_map {f : Char → Char} (hf : ∀ c, f c = '\n' → c = '\n') {k : Nat} :
    ∀ l : List Char, nlRun k (l.map f) → nlRun k l := by
  intro l
  induction l with
  | nil =>
    rintro ⟨s, t, h⟩
    simp only [List.map_nil] at h
    have h2 := congrArg List.length h
    simp [List.length_replicate] at h2
    have hk : k = 0 := by omega
    subst hk
    exact nlRun_zero []
  | cons a l1 ih =>
    rintro ⟨s, t, h⟩
    cases s with
    | nil =>
      obtain ⟨t1, h1, _⟩ := map_eq_repl_append hf k (a :: l1) t (by simpa using h)
      exact ⟨[], t1, by simpa using h1⟩
    | cons b s1 =>
      simp only [List.map_cons, List.cons_append, List.cons.injEq] at h
      obtain ⟨s2, t2, h2⟩ := ih ⟨s1, t, h.2⟩
      exact ⟨a :: s2, t2, by simp [h2]⟩

theorem not_nlRun_map {f : Char → Char} (hf : ∀ c, f c = '\n' → c = '\n') {k : Nat}
    {l : List Char} (hl : ¬ nlRun k l) : ¬ nlRun k (l.map f) :=
  fun h => hl (nlRun_of_map hf l h)

/-! ## Trim and membership lemmas -/

theorem dropWhile_decomp (p : Char → Bool) :
    ∀ l : List Char, ∃ u, l = u ++ l.dropWhile p := by
  intro l
  induction l with
  | nil => exact ⟨[], rfl⟩
  | cons a l1 ih =>
    by_cases ha : p a
    · obtain ⟨u, hu⟩ := ih
      exact ⟨a :: u, by rw [List.dropWhile_cons_of_pos ha]; simpa using hu⟩
    · exact ⟨[], by rw [List.dropWhile_cons_of_neg (by simpa using ha)]; simp⟩

theorem trimChars_decomp (l : List Char) : ∃ u v, l = u ++ trimChars l ++ v := by
  obtain ⟨u, hu⟩ := dropWhile_decomp jsWhitespace l
  obtain ⟨u2, hu2⟩ := dropWhile_decomp jsWhitespace (l.dropWhile jsWhitespace).reverse
  refine ⟨u, u2.reverse, ?_⟩
  have h3 : l.dropWhile jsWhitespace = trimChars l ++ u2.reverse := by
    have h4 := congrArg List.reverse hu2
    simpa [trimChars, List.reverse_append] using h4
  conv_lhs => rw [hu, h3]
  rw [List.append_assoc]

theorem not_nlRun_trimChars {k : Nat} {l : List Char} (hl : ¬ nlRun k l) :
    ¬ nlRun k (trimChars l) := by
  rintro ⟨s, t, h⟩
  obtain ⟨u, v, huv⟩ := trimChars_decomp l
  refine hl ⟨u ++ s, t ++ v, ?_⟩
  rw [huv, h]
  simp [List.append_assoc]

theorem mem_trimChars {c : Char} {l : List Char} (hc : c ∈ trimChars l) : c ∈ l := by
  obtain ⟨u, v, huv⟩ := trimChars_decomp l
  rw [huv]
  simp [hc]

/-! ## Carriage-return and tab lemmas -/

theorem replaceCRs_no_cr (l : List Char) : '\r' ∉ replaceCRs l := by
  intro h
  simp only [replaceCRs, List.mem_map] at h
  obtain ⟨c, _, hc⟩ := h
  by_cases h2 : c = '\r'
  · rw [if_pos h2] at hc
    exact absurd hc (by decide)
  · rw [if_neg h2] at hc
    exact h2 hc

theorem replaceCRs_eq_self {l : List Char} (h : '\r' ∉ l) : replaceCRs l = l := by
  induction l with
  | nil => rfl
  | cons a l1 ih =>
    simp only [List.mem_cons, not_or] at h
    have ha : ¬ (a = '\r') := fun h2 => h.1 h2.symm
    have ih2 := ih h.2
    simp only [replaceCRs, List.map_cons, if_neg ha]
    simp only [replaceCRs] at ih2
    rw [ih2]

theorem replaceCRLF_eq_self : ∀ l : List Char, '\r' ∉ l → replaceCRLF l = l := by
  intro l
  induction l using replaceCRLF.induct with
  | case1 => intro _; rfl
  | case2 c => intro _; rfl
  | case3 c d rest hcd ih =>
    intro h
    exact absurd (by simp [hcd.1]) h
  | case4 c d rest hcd ih =>
    intro h
    simp only [List.mem_cons, not_or] at h
    rw [replaceCRLF, if_neg hcd, ih (by simp only [List.mem_cons, not_or]; exact ⟨h.2.1, h.2.2⟩)]

theorem mem_replaceTabs {c : Char} {l : List Char} (hc : c ∈ replaceTabs l) :
    c ∈ l ∨ c = ' ' := by
  simp only [replaceTabs, List.mem_map] at hc
  obtain ⟨a, ha, h2⟩ := hc
  by_cases h3 : a = '\t'
  · simp [h3] at h2
    exact Or.inr h2.symm
  · simp [h3] at h2
    exact Or.inl (h2 ▸ ha)

theorem mem_data_arrayJoin {c : Char} (sep : String) :
    ∀ pieces : List String, c ∈ (arrayJoin sep pieces).data →
      c ∈ sep.data ∨ ∃ p ∈ pieces, c ∈ p.data
  | [] => fun h => by simp [arrayJoin] at h
  | [s] => fun h => Or.inr ⟨s, by simp, h⟩
  | s :: s2 :: rest => fun h => by
    have h2 : arrayJoin sep (s :: s2 :: rest) = s ++ sep ++ arrayJoin sep (s2 :: rest) := rfl
    rw [h2] at h
    simp only [String.data_append, List.mem_append] at h
    rcases h with (h | h) | h
    · exact Or.inr ⟨s, by simp, h⟩
    · exact Or.inl h
    · rcases mem_data_arrayJoin sep (s2 :: rest) h with h3 | ⟨p, hp, h4⟩
      · exact Or.inl h3
      · exact Or.inr ⟨p, List.mem_cons_of_mem s hp, h4⟩

/-! ## Normalization and merge lemmas -/

theorem normalizePieces_data (pieces : List String) :
    (normalizePieces pieces).data =
      trimChars (replaceCRs (replaceCRLF (replaceTabs
        (collapseNLRuns 3 2 (arrayJoin ("\n") pieces).data)))) := rfl

theorem normalizePieces_no_cr (pieces : List String) :
    '\r' ∉ (normalizePieces pieces).data := by
  rw [normalizePieces_data]
  intro h
  exact replaceCRs_no_cr _ (mem_trimChars h)

theorem tabMap_newline : ∀ c : Char, (if c = '\t' then ' ' else c) = '\n' → c = '\n' := by
  intro c h
  by_cases h2 : c = '\t'
  · rw [if_pos h2] at h
    exact absurd h (by decide)
  · rwa [if_neg h2] at h

theorem normalizePieces_no_triple_nl (pieces : List String)
    (h : ∀ p ∈ pieces, '\r' ∉ p.data) : ¬ nlRun 3 (normalizePieces pieces).data := by
  rw [normalizePieces_data]
  have hjoin : '\r' ∉ (arrayJoin ("\n") pieces).data := by
    intro h2
    rcases mem_data_arrayJoin ("\n") pieces h2 with h3 | ⟨p, hp, h4⟩
    · exact absurd h3 (by decide)
    · exact h p hp h4
  have hcol : ¬ nlRun 3 (collapseNLRuns 3 2 (arrayJoin ("\n") pieces).data) :=
    not_nlRun_collapseNLRuns (by omega) (by omega) _
  have hcolcr : '\r' ∉ collapseNLRuns 3 2 (arrayJoin ("\n") pieces).data := by
    intro h2
    rcases mem_collapseGo _ 0 h2 with h3 | h3
    · exact hjoin h3
    · exact absurd h3 (by decide)
  have htab : ¬ nlRun 3 (replaceTabs (collapseNLRuns 3 2 (arrayJoin ("\n") pieces).data)) :=
    not_nlRun_map tabMap_newline hcol
  have htabcr : '\r' ∉ replaceTabs (collapseNLRuns 3 2 (arrayJoin ("\n") pieces).data) := by
    intro h2
    rcases mem_replaceTabs h2 with h3 | h3
    · exact hcolcr h3
    · exact absurd h3 (by decide)
  rw [replaceCRLF_eq_self _ htabcr, replaceCRs_eq_self htabcr]
  exact not_nlRun_trimChars htab

theorem mergeCombined_no_quad_nl (a b : String) : ¬ nlRun 4 (mergeCombined a b).data := by
  have h : (mergeCombined a b).data =
      trimChars (collapseNLRuns 4 3 (arrayJoin ("\n\n")
        ((if a ≠ "" ∧ trimStr a ≠ "" then [trimStr a] else []) ++
         (if b ≠ "" ∧ trimStr b ≠ "" then [trimStr b] else []))).data) := rfl
  rw [h]
  exact not_nlRun_trimChars (not_nlRun_collapseNLRuns (by omega) (by omega) _)

/-! ## Aggregator shape lemmas -/

theorem extractBodyE_error_shape {env : ExtractEnv} {st : OcrScriptState} {e : String}
    {pr : Results} {stE : OcrScriptState}
    (h : extractBodyE env st = Except.error (e, pr, stE)) :
    pr.errors = [] ∧ pr.combinedText = "" ∧ stE = st := by
  unfold extractBodyE at h
  split at h
  · simp only [Except.error.injEq, Prod.mk.injEq] at h
    obtain ⟨-, h2, h3⟩ := h
    subst h2
    exact ⟨rfl, rfl, h3.symm⟩
  · exact absurd h (by simp)

theorem extract_combined_shape (env : ExtractEnv) (st : OcrScriptState) :
    (extractTextFromSelection env st).1.combinedText = "" ∨
    ∃ a b, (extractTextFromSelection env st).1.combinedText = mergeCombined a b := by
  unfold extractTextFromSelection
  cases h : extractBodyE env st with
  | ok rs =>
    right
    dsimp only
    unfold extractBodyE at h
    split at h
    · exact absurd h (by simp)
    · simp only [Except.ok.injEq] at h
      subst h
      exact ⟨_, _, rfl⟩
  | error trip =>
    left
    obtain ⟨e, pr, stE⟩ := trip
    obtain ⟨-, h2, -⟩ := extractBodyE_error_shape h
    simpa using h2

/-! ## Per-image loop lemmas -/

theorem processOne_eq (i : Nat) (d : ImageDatum) :
    processOne i d = (succTextOf d, attemptOf d,
      (match failMsgOf d with
       | some m => [ErrEntry.entry (some (i + 1)) (some (srcName d)) m ("ocr_failure")]
       | none => [])) := by
  cases hH : d.hasImage
  · simp [processOne, succTextOf, attemptOf, failMsgOf, hH]
  · cases hO : d.ocr with
    | ok r =>
      by_cases hT : r.text ≠ "" ∧ trimStr r.text ≠ ""
      · simp [processOne, succTextOf, attemptOf, failMsgOf, hH, hO, hT]
      · simp [processOne, succTextOf, attemptOf, failMsgOf, hH, hO, hT]
    | err e =>
      simp [processOne, succTextOf, attemptOf, failMsgOf, hH, hO]

theorem processImagesGo_spec :
    ∀ (arr : List ImageDatum) (i : Nat) (acc : List String × List ImageAttempt × List ErrEntry),
      processImagesGo i arr acc =
        (acc.1 ++ arr.filterMap succTextOf, acc.2.1 ++ arr.map attemptOf,
         acc.2.2 ++ errorsOf (i + 1) arr) := by
  intro arr
  induction arr with
  | nil =>
    intro i acc
    simp [processImagesGo, errorsOf]
  | cons d ds ih =>
    intro i acc
    rw [processImagesGo, processOne_eq, ih]
    cases hS : succTextOf d <;> cases hF : failMsgOf d <;>
      simp [List.filterMap_cons, errorsOf, hS, hF, List.append_assoc]

/-! ## Pixel range lemmas -/

theorem jsRound_range {x : ℚ} (h0 : 0 ≤ x) (h255 : x ≤ 255) : inRange255 (jsRound x) := by
  unfold jsRound inRange255
  constructor
  · have h2 : (0 : ℤ) ≤ ⌊x + 1/2⌋ := by
      rw [Int.le_floor]
      push_cast
      linarith
    exact_mod_cast h2
  · have h2 : ⌊x + 1/2⌋ < 256 := by
      rw [Int.floor_lt]
      push_cast
      linarith
    have h3 : ⌊x + 1/2⌋ ≤ 255 := by omega
    exact_mod_cast h3

theorem grayOf_range {r g b : ℚ} (hr : inRange255 r) (hg : inRange255 g)
    (hb : inRange255 b) : inRange255 (grayOf r g b) := by
  obtain ⟨hr0, hr1⟩ := hr
  obtain ⟨hg0, hg1⟩ := hg
  obtain ⟨hb0, hb1⟩ := hb
  apply jsRound_range
  · positivity
  · nlinarith

theorem clamp255_range (x : ℚ) : inRange255 (clamp255 x) := by
  unfold clamp255 inRange255
  constructor
  · exact le_min (by norm_num) (le_max_left 0 x)
  · exact min_le_left 255 _

theorem contrastStretch_range (avg c : ℚ) : inRange255 (contrastStretch avg c) :=
  clamp255_range _

/-! ## Fallback deduplication lemma -/

theorem addFallback_decomp (sel : SelectionData) :
    ∀ (centerElems : List CenterElem) (acc : List String),
      ∃ extra, addFallbackTexts sel centerElems acc = acc ++ extra ∧
        extra.Nodup ∧ ∀ s ∈ extra, s ∉ acc := by
  intro ces
  induction ces with
  | nil =>
    intro acc
    exact ⟨[], by simp [addFallbackTexts], List.nodup_nil, by simp⟩
  | cons e es ih =>
    intro acc
    by_cases h1 : rectOverlaps (selRectOf sel) (toSRect e.rect) = true
    · by_cases h2 : e.innerText ≠ "" ∧ trimStr e.innerText ≠ ""
      · by_cases h3 : trimStr e.innerText ∉ acc
        · have hstep : addFallbackTexts sel (e :: es) acc =
              addFallbackTexts sel es (acc ++ [trimStr e.innerText]) := by
            simp [addFallbackTexts, List.foldl_cons, h1, h2, h3]
          obtain ⟨extra1, ha, hnd, hni⟩ := ih (acc ++ [trimStr e.innerText])
          refine ⟨trimStr e.innerText :: extra1, ?_, ?_, ?_⟩
          · rw [hstep, ha]
            simp [List.append_assoc]
          · rw [List.nodup_cons]
            refine ⟨fun hmem => ?_, hnd⟩
            exact hni _ hmem (by simp)
          · intro s hs
            rcases List.mem_cons.mp hs with h4 | h4
            · exact h4 ▸ h3
            · intro h5
              exact hni s h4 (List.mem_append_left _ h5)
        · have h4 : trimStr e.innerText ∈ acc := not_not.mp h3
          have hstep : addFallbackTexts sel (e :: es) acc = addFallbackTexts sel es acc := by
            simp [addFallbackTexts, List.foldl_cons, h1, h2, h4]
          rw [hstep]
          exact ih acc
      · have hstep : addFallbackTexts sel (e :: es) acc = addFallbackTexts sel es acc := by
          simp [addFallbackTexts, List.foldl_cons, h1, h2]
        rw [hstep]
        exact ih acc
    · have hstep : addFallbackTexts sel (e :: es) acc = addFallbackTexts sel es acc := by
        simp [addFallbackTexts, List.foldl_cons, h1]
      rw [hstep]
      exact ih acc

/-! ## Claims -/

/-- Claim C1, counterexample: called with a malformed 3 by 3 selection
rectangle, `extractTextFromSelection` does not throw — the claim asserts it
throws exactly for rectangles below the 5px threshold, but no such check
exists in the aggregator: the try block completes normally (`extractBodyE`
returns `ok`) and the caller receives an ordinary result with empty `errors`. -/
theorem claim1_counterexample :
    (3 : ℤ) < 5 ∧
    extractBodyE
        ⟨⟨0, 0, 3, 3, 0, 0, 3, 3⟩, [], [], [], Except.ok false, Except.ok (), true,
         OcrOutcome.ok ⟨"", 0, 0⟩⟩
        ⟨false, false⟩ =
      Except.ok (⟨"", "", "", [], []⟩, ⟨false, false⟩) ∧
    extractTextFromSelection
        ⟨⟨0, 0, 3, 3, 0, 0, 3, 3⟩, [], [], [], Except.ok false, Except.ok (), true,
         OcrOutcome.ok ⟨"", 0, 0⟩⟩
        ⟨false, false⟩ =
      (⟨"", "", "", [], []⟩, ⟨false, false⟩) :=
  ⟨by decide, rfl, by decide⟩

/-- Claim C1 (amended): the Aggregator never throws at all — for every
environment and processor state, including malformed rectangles below the 5px
threshold, `extractTextFromSelection` returns an `ExtractionResult`: either
the try block completes and its value is returned unchanged, or the exception
is caught and converted into a non-empty `errors` list with empty
`combinedText`. The 5px gate lives only in the selection overlay
(`handleMouseUp`), not in the aggregator. -/
theorem claim1_amended (env : ExtractEnv) (st : OcrScriptState) :
    extractBodyE env st = Except.ok (extractTextFromSelection env st) ∨
    ((extractTextFromSelection env st).1.errors ≠ [] ∧
     (extractTextFromSelection env st).1.combinedText = "") := by
  cases h : extractBodyE env st with
  | ok rs =>
    left
    unfold extractTextFromSelection
    rw [h]
  | error trip =>
    obtain ⟨e, pr, stE⟩ := trip
    right
    obtain ⟨h1, h2, -⟩ := extractBodyE_error_shape h
    unfold extractTextFromSelection
    rw [h]
    dsimp only
    exact ⟨by simp [h1], h2⟩

/-- Claim C2, counterexample: a background-image element whose intersection
with the selection is 55 by 5 — not taller than 10 device-independent pixels —
is still kept by `detectImagesInSelection`, because the background-image pass
has no intersection-size check. The claim asserts every returned candidate has
intersection width and height greater than 10. -/
theorem claim2_counterexample :
    detectImagesInSelection ⟨0, 0, 100, 100, 0, 0, 100, 100⟩ []
        [⟨⟨45, 48, 1000, 5⟩, some "bg.png", "", false, true, OcrOutcome.ok ⟨"", 0, 0⟩⟩] =
      [⟨"bg.png", ⟨45, 48, 55, 5⟩, true, false, true, OcrOutcome.ok ⟨"", 0, 0⟩⟩] ∧
    ¬ ((10 : ℤ) < 5) := by
  exact ⟨by decide, by decide⟩

/-- Claim C2 (amended): the greater-than-10 intersection threshold holds for
every candidate produced by the native `img` pass of `detectImagesInSelection`
(`isBg = false`); background-image candidates are kept on mere overlap and may
carry an arbitrarily small intersection. -/
theorem claim2_amended (sel : SelectionData) (imgs : List ImgElem)
    (centerElems : List CenterElem) (d : DetectedImage)
    (hd : d ∈ detectImagesInSelection sel imgs centerElems) (hbg : d.isBg = false) :
    10 < d.intersection.width ∧ 10 < d.intersection.height := by
  unfold detectImagesInSelection at hd
  rw [List.mem_append] at hd
  rcases hd with h | h
  · rw [List.mem_filterMap] at h
    obtain ⟨im, -, h⟩ := h
    dsimp only at h
    split at h
    · split at h
      · rename_i hcond
        simp only [Option.some.injEq] at h
        subst h
        simp only [Bool.and_eq_true, decide_eq_true_eq] at hcond
        exact ⟨hcond.1, hcond.2⟩
      · exact absurd h (by simp)
    · exact absurd h (by simp)
  · rw [List.mem_filterMap] at h
    obtain ⟨e, -, h⟩ := h
    dsimp only at h
    rcases hbu : e.bgUrl with _ | u
    · rw [hbu] at h
      exact absurd h (by simp)
    · rw [hbu] at h
      dsimp only at h
      split at h
      · simp only [Option.some.injEq] at h
        subst h
        simp at hbg
      · exact absurd h (by simp)

/-- Claim C2, witness: a native `img` element overlapping the selection with a
50 by 50 intersection is kept, and the amended theorem yields its threshold. -/
theorem claim2_witness :
    (⟨"i.png", ⟨0, 0, 50, 50⟩, false, true, true, OcrOutcome.ok ⟨"t", 1, 1⟩⟩ : DetectedImage) ∈
      detectImagesInSelection ⟨0, 0, 100, 100, 0, 0, 100, 100⟩
        [⟨⟨0, 0, 50, 50⟩, "i.png", true, OcrOutcome.ok ⟨"t", 1, 1⟩⟩] [] ∧
    10 < (⟨"i.png", ⟨0, 0, 50, 50⟩, false, true, true,
            OcrOutcome.ok ⟨"t", 1, 1⟩⟩ : DetectedImage).intersection.width ∧
    10 < (⟨"i.png", ⟨0, 0, 50, 50⟩, false, true, true,
            OcrOutcome.ok ⟨"t", 1, 1⟩⟩ : DetectedImage).intersection.height :=
  ⟨by decide,
   claim2_amended ⟨0, 0, 100, 100, 0, 0, 100, 100⟩
     [⟨⟨0, 0, 50, 50⟩, "i.png", true, OcrOutcome.ok ⟨"t", 1, 1⟩⟩] []
     ⟨"i.png", ⟨0, 0, 50, 50⟩, false, true, true, OcrOutcome.ok ⟨"t", 1, 1⟩⟩
     (by decide) rfl⟩

/-- Claim C3: the per-image OCR loop appends exactly one record per image datum
to `results.images` in input order, each determined by that datum alone (a
pointwise map, so one image's failure never disturbs its neighbours); the texts
fed into `ocrText`/`combinedText` are the successful nonempty recognitions in
the same order; and every failure is recorded in `results.errors` with its
1-based index and source identifier. -/
theorem claim3 (arr : List ImageDatum) :
    processImages arr =
      (arr.filterMap succTextOf, arr.map attemptOf, errorsOf 1 arr) := by
  have h := processImagesGo_spec arr 0 ([], [], [])
  simpa [processImages] using h

/-- Claim C4: `OCRProcessor.extractText` on an initialized processor with a
valid image source and language: if the engine has not produced a result
within the hard 30000 ms bound, the call fails with the timeout error
regardless of what the engine would eventually produce; and when recognition
succeeds within the bound with whitespace-only text, the call succeeds with
empty text, confidence 0 and a warning field instead of failing. -/
theorem claim4 (st : OcrProcState) (env : ExtractTextEnv)
    (hinit : st.isInitialized = true)
    (hnull : isNullSource env.src = false)
    (hpre : env.shouldPreprocess = true → preprocessStep env.src = Except.ok ())
    (hlang : env.lang ≠ "") :
    (ocrTimeoutMs ≤ env.engineTime →
      OCRProcessor.extractText st env =
        Except.error ("OCR processing timed out. The image may be too large or complex.")) ∧
    (∀ d : RecData, env.engineTime < ocrTimeoutMs →
      env.engineOutcome = Except.ok (some d) → trimStr d.text = "" →
      OCRProcessor.extractText st env =
        Except.ok { text := "", confidence := 0, processingTime := env.processingTime,
                    warning := some ("No text found in image") }) := by
  have hcatch : OCRProcessor.extractText st env =
      (match OCRProcessor.tryBody env with
       | .ok r => Except.ok r
       | .error e => Except.error (rewriteOcrError e)) := by
    unfold OCRProcessor.extractText
    simp [hinit]
  have htry : ∀ race : Except String (Option RecData),
      (if env.engineTime < ocrTimeoutMs then env.engineOutcome
       else Except.error ("OCR processing timeout: exceeded " ++
                          toString ocrTimeoutMs ++ "ms")) = race →
      OCRProcessor.tryBody env =
        (match race with
         | .error m => Except.error m
         | .ok none => Except.error ("Invalid OCR result: result data is missing")
         | .ok (some d) =>
           if trimStr d.text = "" then
             Except.ok { text := "", confidence := 0, processingTime := env.processingTime,
                         warning := some ("No text found in image") }
           else
             Except.ok { text := d.text, confidence := d.confidence,
                         processingTime := env.processingTime, warning := none }) := by
    intro race hrace
    unfold OCRProcessor.tryBody
    rw [hnull]
    by_cases hp : env.shouldPreprocess = true
    · simp only [hp, if_true, hpre hp, Bool.false_eq_true, if_false, if_neg hlang, hrace]
    · simp only [Bool.not_eq_true] at hp
      simp only [hp, Bool.false_eq_true, if_false, if_neg hlang, hrace]
  constructor
  · intro htime
    rw [hcatch, htry _ (if_neg (by omega))]
    rfl
  · intro d htime hout hempty
    rw [hcatch, htry _ (by rw [if_pos htime, hout])]
    simp [hempty]

/-- Claim C4, witness: with an initialized processor and a valid 10 by 10
canvas source, an engine still busy at 30000 ms yields the timeout error even
though it would have produced text, and a fast recognition returning
whitespace-only text yields the empty-with-warning success. -/
theorem claim4_witness :
    OCRProcessor.extractText ⟨true⟩
        ⟨Except.ok (), ImageSource.canvasElement 10 10, true, "eng", 30000,
         Except.ok (some ⟨"xyz", 9⟩), 5⟩ =
      Except.error ("OCR processing timed out. The image may be too large or complex.") ∧
    OCRProcessor.extractText ⟨true⟩
        ⟨Except.ok (), ImageSource.canvasElement 10 10, true, "eng", 100,
         Except.ok (some ⟨"  ", 80⟩), 5⟩ =
      Except.ok ⟨"", 0, 5, some ("No text found in image")⟩ :=
  ⟨(claim4 ⟨true⟩
      ⟨Except.ok (), ImageSource.canvasElement 10 10, true, "eng", 30000,
       Except.ok (some ⟨"xyz", 9⟩), 5⟩ rfl rfl (fun _ => rfl) (by decide)).1 (by decide),
   (claim4 ⟨true⟩
      ⟨Except.ok (), ImageSource.canvasElement 10 10, true, "eng", 100,
       Except.ok (some ⟨"  ", 80⟩), 5⟩ rfl rfl (fun _ => rfl) (by decide)).2
     ⟨"  ", 80⟩ (by decide) rfl (by decide)⟩

/-- Claim C5, counterexample: a completed drag whose selection box is exactly
5 by 10 pixels is not below the 5px threshold in either dimension, so the claim
says it is committed and handed to the extraction pipeline — but `handleMouseUp`
requires both dimensions to be strictly greater than 5 and cancels it. -/
theorem claim5_counterexample :
    handleMouseUp true true (some ⟨0, 0, 5, 10⟩) 0 0 = MouseUpResult.cancelled ∧
    ¬ ((5 : ℤ) < 5 ∨ (10 : ℤ) < 5) := by
  exact ⟨by decide, by decide⟩

/-- Claim C5 (amended): on pointer-up during an active drag, the rectangle is
committed to the extraction pipeline exactly when both its width and height
strictly exceed 5 pixels; otherwise — including rectangles of exactly 5 pixels,
and in particular any 3 by 3 rectangle — the selection is cancelled: the
capture layer is removed and `extract` is never invoked (only the `committed`
outcome reaches `handleSelectionComplete`/`extractTextFromSelection`). -/
theorem claim5_amended (r : BRect) (sx sy : ℤ) :
    ((r.width ≤ 5 ∨ r.height ≤ 5) →
      handleMouseUp true true (some r) sx sy = MouseUpResult.cancelled) ∧
    ((5 < r.width ∧ 5 < r.height) →
      handleMouseUp true true (some r) sx sy =
        MouseUpResult.committed (selectionDataOf r sx sy)) := by
  constructor
  · intro h
    unfold handleMouseUp
    simp only [and_self, not_true_eq_false, if_false]
    rw [if_neg]
    intro hc
    obtain ⟨h1, h2⟩ := hc
    simp only [selectionDataOf] at h1 h2
    omega
  · intro h
    unfold handleMouseUp
    simp only [and_self, not_true_eq_false, if_false]
    rw [if_pos]
    constructor
    · simpa [selectionDataOf] using h.1
    · simpa [selectionDataOf] using h.2

/-- Claim C5, witness: a 3 by 3 drag is cancelled (so `extract` is never
invoked on it) and a 10 by 10 drag is committed with its selection data. -/
theorem claim5_witness :
    handleMouseUp true true (some ⟨0, 0, 3, 3⟩) 0 0 = MouseUpResult.cancelled ∧
    handleMouseUp true true (some ⟨0, 0, 10, 10⟩) 0 0 =
      MouseUpResult.committed (selectionDataOf ⟨0, 0, 10, 10⟩ 0 0) :=
  ⟨(claim5_amended ⟨0, 0, 3, 3⟩ 0 0).1 (Or.inl (by norm_num)),
   (claim5_amended ⟨0, 0, 10, 10⟩ 0 0).2 ⟨by norm_num, by norm_num⟩⟩

/-- Claim C6: for every environment and processor state, the `combinedText`
field returned by `extractTextFromSelection` contains no run of 4 or more
consecutive newline characters: the merge step joins the parts, collapses
every run of 4+ newlines to exactly 3, and trims; the catch path returns an
empty `combinedText`. -/
theorem claim6 (env : ExtractEnv) (st : OcrScriptState) :
    ¬ nlRun 4 (extractTextFromSelection env st).1.combinedText.data := by
  rcases extract_combined_shape env st with h | ⟨a, b, h⟩
  · rw [h]
    exact not_nlRun_nil (by omega)
  · rw [h]
    exact mergeCombined_no_quad_nl a b

/-- Claim C7: when the geometry pass finds no candidate images, the aggregator
returns a result whose `images` (and `errors`) lists are empty, and the OCR
adapter is untouched: neither the script-loaded flag nor the initialized flag
of the processor state changes, because the whole OCR phase is skipped. -/
theorem claim7 (env : ExtractEnv) (st : OcrScriptState)
    (hdet : detectImagesInSelection env.sel env.pageImgs env.centerElems = []) :
    (extractTextFromSelection env st).1.images = [] ∧
    (extractTextFromSelection env st).1.errors = [] ∧
    (extractTextFromSelection env st).2 = st := by
  unfold extractTextFromSelection extractBodyE
  rw [hdet]
  simp

/-- Claim C7, witness: a page whose only image lies entirely outside the
selection produces no candidates, so `images` is empty and the processor state
is returned unchanged. -/
theorem claim7_witness :
    (extractTextFromSelection
        ⟨⟨0, 0, 100, 100, 0, 0, 100, 100⟩,
         [⟨⟨500, 500, 50, 50⟩, "far.png", true, OcrOutcome.ok ⟨"x", 1, 1⟩⟩], [], [],
         Except.ok true, Except.ok (), true, OcrOutcome.ok ⟨"y", 2, 2⟩⟩
        ⟨false, false⟩).1.images = [] ∧
    (extractTextFromSelection
        ⟨⟨0, 0, 100, 100, 0, 0, 100, 100⟩,
         [⟨⟨500, 500, 50, 50⟩, "far.png", true, OcrOutcome.ok ⟨"x", 1, 1⟩⟩], [], [],
         Except.ok true, Except.ok (), true, OcrOutcome.ok ⟨"y", 2, 2⟩⟩
        ⟨false, false⟩).1.errors = [] ∧
    (extractTextFromSelection
        ⟨⟨0, 0, 100, 100, 0, 0, 100, 100⟩,
         [⟨⟨500, 500, 50, 50⟩, "far.png", true, OcrOutcome.ok ⟨"x", 1, 1⟩⟩], [], [],
         Except.ok true, Except.ok (), true, OcrOutcome.ok ⟨"y", 2, 2⟩⟩
        ⟨false, false⟩).2 = ⟨false, false⟩ :=
  claim7
    ⟨⟨0, 0, 100, 100, 0, 0, 100, 100⟩,
     [⟨⟨500, 500, 50, 50⟩, "far.png", true, OcrOutcome.ok ⟨"x", 1, 1⟩⟩], [], [],
     Except.ok true, Except.ok (), true, OcrOutcome.ok ⟨"y", 2, 2⟩⟩
    ⟨false, false⟩ (by decide)

/-- Claim C8, counterexample: a text node whose content uses Windows line
endings, "a" followed by four CRLF pairs and "b", normalizes to a string with
four consecutive newlines (three consecutive blank lines): the 3+-newline
collapse runs before CRLF conversion, so the claim that every run of 3 or more
consecutive blank lines is collapsed to one blank line fails. -/
theorem claim8_counterexample :
    extractSelectableText ⟨0, 0, 100, 100, 0, 0, 100, 100⟩
        [⟨"a\r\n\r\n\r\n\r\nb", ⟨10, 10, 50, 20⟩⟩] [] = "a\n\n\n\nb" ∧
    nlRun 4 ("a\n\n\n\nb").data :=
  ⟨by decide, ⟨['a'], ['b'], by decide⟩⟩

/-- Claim C8 (amended): the output of the `extractSelectableText` normalization
always has CRLF and CR converted to LF (no carriage return remains) and is
trimmed; but the blank-line collapse runs before the line-ending conversion, so
only when the collected pieces contain no carriage returns is every run of 3 or
more newlines collapsed (the result then contains no 3-newline run at all);
newline runs formed from CRLF/CR sequences survive. Spaces are never collapsed
(tabs become single spaces). -/
theorem claim8_amended (pieces : List String) :
    ('\r' ∉ (normalizePieces pieces).data) ∧
    ((∀ p ∈ pieces, '\r' ∉ p.data) → ¬ nlRun 3 (normalizePieces pieces).data) :=
  ⟨normalizePieces_no_cr pieces, normalizePieces_no_triple_nl pieces⟩

/-- Claim C8, witness: an LF-only piece with a 4-newline run normalizes to a
carriage-return-free string with no 3-newline run. -/
theorem claim8_witness :
    '\r' ∉ (normalizePieces ["x\n\n\n\ny"]).data ∧
    ¬ nlRun 3 (normalizePieces ["x\n\n\n\ny"]).data :=
  ⟨(claim8_amended ["x\n\n\n\ny"]).1, (claim8_amended ["x\n\n\n\ny"]).2 (by decide)⟩

/-- Claim C9, counterexample: two distinct text nodes with the same trimmed
content "a", both overlapping the selection, are both pushed by the walker
loop — the claim that each distinct trimmed string appears at most once in the
collected pieces fails, because the walker loop has no duplicate check. -/
theorem claim9_counterexample :
    collectTextPieces ⟨0, 0, 100, 100, 0, 0, 100, 100⟩
        [⟨"a", ⟨10, 10, 50, 20⟩⟩, ⟨"a", ⟨10, 10, 50, 20⟩⟩] [] = ["a", "a"] ∧
    ¬ (["a", "a"] : List String).Nodup := by
  exact ⟨by decide, by decide⟩

/-- Claim C9 (amended): deduplication happens only at the fallback stage of
`extractSelectableText`: the collected pieces are the walker pieces, in
traversal order and possibly containing duplicates, followed by the fallback
contributions, which are pairwise distinct and are appended only when not
already present among the earlier pieces. -/
theorem claim9_amended (sel : SelectionData) (nodes : List TextNodeInfo)
    (centerElems : List CenterElem) :
    ∃ extra, collectTextPieces sel nodes centerElems = walkerPieces sel nodes ++ extra ∧
      extra.Nodup ∧ ∀ s ∈ extra, s ∉ walkerPieces sel nodes := by
  unfold collectTextPieces
  exact addFallback_decomp sel centerElems (walkerPieces sel nodes)

/-- Claim C10: every channel value the preprocessing pixel loop writes back —
after grayscale conversion and contrast enhancement, under any combination of
the two toggles — lies within the byte range, for any input channel values in
the byte range: the contrast-stretched value is clamped via
`Math.min(255, Math.max(0, x))` before being stored, and the rounded luminance
value is within range because the weights sum to 1. -/
theorem claim10 (gs ec : Bool) (r g b : ℚ) (hr : inRange255 r) (hg : inRange255 g)
    (hb : inRange255 b) :
    inRange255 (OCRProcessor.processPixel gs ec r g b).1 ∧
    inRange255 (OCRProcessor.processPixel gs ec r g b).2.1 ∧
    inRange255 (OCRProcessor.processPixel gs ec r g b).2.2 := by
  have hgray := grayOf_range hr hg hb
  cases gs with
  | false =>
    cases ec with
    | false =>
      simp only [OCRProcessor.processPixel, Bool.false_eq_true, if_false]
      exact ⟨hr, hg, hb⟩
    | true =>
      simp only [OCRProcessor.processPixel, Bool.false_eq_true, if_false, if_true]
      exact ⟨contrastStretch_range _ _, contrastStretch_range _ _, contrastStretch_range _ _⟩
  | true =>
    cases ec with
    | false =>
      simp only [OCRProcessor.processPixel, Bool.false_eq_true, if_false, if_true]
      exact ⟨hgray, hgray, hgray⟩
    | true =>
      simp only [OCRProcessor.processPixel, if_true]
      exact ⟨contrastStretch_range _ _, contrastStretch_range _ _, contrastStretch_range _ _⟩

/-- Claim C10, witness: both toggles on, channels (10, 20, 30). -/
theorem claim10_witness :
    inRange255 (OCRProcessor.processPixel true true 10 20 30).1 ∧
    inRange255 (OCRProcessor.processPixel true true 10 20 30).2.1 ∧
    inRange255 (OCRProcessor.processPixel true true 10 20 30).2.2 :=
  claim10 true true 10 20 30 (by norm_num [inRange255]) (by norm_num [inRange255])
    (by norm_num [inRange255])

end TextExtractor
